import Mathlib

/-!
Shallow embedding of the "Radio" broadcast server (TypeScript sources:
`server/src/queue.ts`, `server/src/stream.ts`, `server/src/index.ts`).
Machine integers and timestamps are modelled as `Nat` (JS numbers here are
non-negative epoch-millisecond timestamps and small counts); JS truthiness
of optional numbers is modelled explicitly by `optTruthy`.
-/

deriving instance DecidableEq for Except

namespace Radio

/-- JS truthiness of a nullable number: `null`/`undefined` and `0` are falsy. -/
def optTruthy : Option Nat → Bool
| none => false
| some n => n != 0

/-- ASCII lowercase of one character (the URLs and header values involved are
ASCII, so this matches JS `toLowerCase` on them). -/
def lowerChar (c : Char) : Char :=
  if 65 <= c.toNat ∧ c.toNat <= 90 then Char.ofNat (c.toNat + 32) else c

/-- `s.toLowerCase()` for ASCII strings, over the character list so that it
evaluates by kernel reduction. -/
def toLowerStr (s : String) : String :=
  String.mk (s.data.map lowerChar)

/-- `s.startsWith(pat)`. -/
def startsWithStr (s pat : String) : Bool :=
  pat.data.isPrefixOf s.data

/-- `s.slice(n)` / dropping the first `n` characters. -/
def dropStr (s : String) (n : Nat) : String :=
  String.mk (s.data.drop n)

/-- `s.includes(pat)` on JS strings: substring containment. -/
def containsSubstr (s pat : String) : Bool :=
  (List.range (s.data.length + 1)).any fun i => pat.data.isPrefixOf (s.data.drop i)

/-! ### Tracks and the queue (`server/src/queue.ts`) -/

inductive Source
| youtube
| soundcloud
deriving DecidableEq

structure RequestedBy where
  id : String
  displayName : String
  avatar : Option String
deriving DecidableEq

structure Track where
  id : Nat
  url : String
  title : String
  thumbnail : Option String
  duration : Option Nat
  startedAt : Option Nat
  source : Source
  requestedBy : RequestedBy
deriving DecidableEq

/-- `Omit<Track, 'id'>`: the payload handed to `enqueue`. -/
structure TrackPayload where
  url : String
  title : String
  thumbnail : Option String
  duration : Option Nat
  startedAt : Option Nat
  source : Source
  requestedBy : RequestedBy
deriving DecidableEq

/-- The queue's private `Track[]` plus a counter modelling `randomUUID`
freshness (each call returns an id never returned before). -/
structure TrackQueue where
  queue : List Track
  nextId : Nat
deriving DecidableEq

def TrackQueue.enqueue (s : TrackQueue) (payload : TrackPayload) : Track × TrackQueue :=
  let track : Track :=
    { id := s.nextId, url := payload.url, title := payload.title,
      thumbnail := payload.thumbnail, duration := payload.duration,
      startedAt := payload.startedAt, source := payload.source,
      requestedBy := payload.requestedBy }
  (track, { queue := s.queue ++ [track], nextId := s.nextId + 1 })

def TrackQueue.dequeue (s : TrackQueue) : Option Track × TrackQueue :=
  match s.queue with
  | [] => (none, s)
  | t :: rest => (some t, { s with queue := rest })

def TrackQueue.peek (s : TrackQueue) : Option Track :=
  s.queue.head?

def TrackQueue.snapshot (s : TrackQueue) : List Track :=
  s.queue

def TrackQueue.size (s : TrackQueue) : Nat :=
  s.queue.length

def TrackQueue.remove (s : TrackQueue) (trackId : Nat) : Bool × TrackQueue :=
  match s.queue.findIdx? (fun t => t.id == trackId) with
  | none => (false, s)
  | some index => (true, { s with queue := s.queue.eraseIdx index })

def TrackQueue.move (s : TrackQueue) (trackId : Nat) (newIndex : Int) : Bool × TrackQueue :=
  match s.queue.findIdx? (fun t => t.id == trackId) with
  | none => (false, s)
  | some currentIndex =>
    let clampedIndex : Nat := (max 0 (min newIndex ((s.queue.length : Int) - 1))).toNat
    match s.queue.get? currentIndex with
    | none => (false, s)
    | some track =>
      (true, { s with queue := (s.queue.eraseIdx currentIndex).insertIdx clampedIndex track })

/-! ### StreamService state and effects (`server/src/stream.ts`) -/

/-- The 36-byte constant MP3 silence frame `SILENCE_FRAME`
(hex `fffbe4` followed by 33 zero bytes). -/
def SILENCE_FRAME : List Nat :=
  0xff :: 0xfb :: 0xe4 :: List.replicate 33 0

/-- `SILENCE_FLUSH`: the silence frame repeated 100 times
(`Buffer.concat(Array(100).fill(SILENCE_FRAME))`). -/
def SILENCE_FLUSH : List Nat :=
  (List.replicate 100 SILENCE_FRAME).flatten

inductive Sig
| sigstop
| sigcont
deriving DecidableEq

/-- Externally visible side effects of the engine operations. -/
inductive Effect
| signal (pid : Nat) (sig : Sig)
| writeSink (sink : Nat) (data : List Nat)
deriving DecidableEq

/-- A listener sink (`PassThrough` tap): it stays in the `taps` set until the
response-close callback removes it, so a destroyed sink may still be present. -/
structure Sink where
  id : Nat
  destroyed : Bool
deriving DecidableEq

/-- The mutable fields of the `StreamService` class. `stopCurrentPresent`
models whether the `stopCurrent` callback handle is non-null, and
`pendingNext` models a `setTimeout`-scheduled deferred `playNext`. -/
structure StreamService where
  taps : List Sink
  playing : Bool
  starting : Bool
  paused : Bool
  pausedAt : Option Nat
  totalPausedDuration : Nat
  stopCurrentPresent : Bool
  currentFfmpegPid : Option Nat
  skipping : Bool
  pendingNext : Bool
  currentTrack : Option Track
  lastPlayedTrack : Option Track
  currentYoutubeThumbnail : Option String
  currentSoundcloudThumbnail : Option String
  queue : TrackQueue
deriving DecidableEq

structure StreamState where
  current : Option Track
  queue : List Track
  listeners : Nat
  paused : Bool
deriving DecidableEq

/-- `StreamService.getState`. The reported track's `startedAt` is shifted by
`totalPausedDuration` plus `currentPauseDuration`, which the source fixes to
`0` in both branches of `this.paused ? 0 : 0`. The `track?.startedAt` guard is
JS-truthy. -/
def StreamService.getState (s : StreamService) : StreamState :=
  let track := match s.currentTrack with
    | some t => some t
    | none => s.lastPlayedTrack
  let adjustedTrack := match track with
    | some t =>
      if optTruthy t.startedAt then
        let currentPauseDuration := if s.paused then 0 else 0
        let adjustedStartedAt :=
          t.startedAt.getD 0 + s.totalPausedDuration + currentPauseDuration
        some { t with startedAt := some adjustedStartedAt }
      else track
    | none => none
  { current := adjustedTrack,
    queue := s.queue.snapshot,
    listeners := s.taps.length,
    paused := s.paused }

/-- `flushWithSilence`: write `SILENCE_FLUSH` to every non-destroyed tap. -/
def StreamService.flushWithSilence (s : StreamService) : List Effect :=
  (s.taps.filter fun tap => !tap.destroyed).map fun tap =>
    Effect.writeSink tap.id SILENCE_FLUSH

/-- `broadcastChunk`: when paused, send `SILENCE_FRAME` instead of the chunk. -/
def StreamService.broadcastChunk (s : StreamService) (chunk : List Nat) : List Effect :=
  let dataToSend := if s.paused then SILENCE_FRAME else chunk
  (s.taps.filter fun tap => !tap.destroyed).map fun tap =>
    Effect.writeSink tap.id dataToSend

/-- `StreamService.setPaused`, returning the updated state together with the
process signals and sink writes it performs, in program order. `now` stands
for `Date.now()`. -/
def StreamService.setPaused (s : StreamService) (paused : Bool) (now : Nat) :
    StreamService × List Effect :=
  if paused && !s.paused then
    let s' := { s with pausedAt := some now, paused := true }
    let sigs := match s.currentFfmpegPid with
      | some pid => [Effect.signal pid Sig.sigstop]
      | none => []
    (s', sigs ++ StreamService.flushWithSilence s')
  else if !paused && s.paused && optTruthy s.pausedAt then
    let s' := { s with
      totalPausedDuration := s.totalPausedDuration + (now - s.pausedAt.getD 0),
      pausedAt := none, paused := false }
    let sigs := match s.currentFfmpegPid with
      | some pid => [Effect.signal pid Sig.sigcont]
      | none => []
    (s', sigs)
  else
    ({ s with paused := paused }, [])

def StreamService.isPaused (s : StreamService) : Bool :=
  s.paused

/-- `playNext`: guarded by `playing`; dequeues the head and runs `playTrack`.
`ok` models whether `createAudioStream` succeeds: on success the synchronous
part of `playTrack` runs (reset pause bookkeeping, install the track as
current and last played, set the thumbnail caches, mark playing); on failure
the `catch` clause clears the current track and schedules a retry. -/
def StreamService.playNext (s : StreamService) (ok : Bool) : StreamService :=
  if s.playing then s
  else
    match TrackQueue.dequeue s.queue with
    | (none, q') =>
      { s with
        queue := q', currentTrack := none, lastPlayedTrack := none,
        currentYoutubeThumbnail := none, currentSoundcloudThumbnail := none,
        playing := false }
    | (some next, q') =>
      if ok then
        { s with
          queue := q',
          pausedAt := none, totalPausedDuration := 0,
          currentTrack := some next, lastPlayedTrack := some next,
          playing := true,
          currentYoutubeThumbnail :=
            (if next.source = Source.youtube then next.thumbnail else none),
          currentSoundcloudThumbnail :=
            (if next.source = Source.soundcloud then next.thumbnail else none),
          stopCurrentPresent := true }
      else
        { s with
          queue := q', currentTrack := none, lastPlayedTrack := none,
          playing := false, pendingNext := true }

/-- `ensurePlaying`: returns immediately when `playing` or `starting` is set;
otherwise sets `starting`, awaits `playNext`, and clears `starting`. -/
def StreamService.ensurePlaying (s : StreamService) (ok : Bool) : StreamService :=
  if s.playing || s.starting then s
  else
    let s1 := { s with starting := true }
    let s2 := StreamService.playNext s1 ok
    { s2 with starting := false }

/-- `skipCurrent`: set the `skipping` guard, drop the stop handle and encoder
pid, clear `playing` and the current track, and schedule `playNext` via
`setTimeout` (modelled by `pendingNext`). -/
def StreamService.skipCurrent (s : StreamService) : StreamService :=
  { s with
    skipping := true, stopCurrentPresent := false,
    currentFfmpegPid := none, playing := false, currentTrack := none,
    pendingNext := true }

/-- The 150 ms timer scheduled by `skipCurrent`: clear `skipping` and call
`playNext`. -/
def StreamService.skipTimer (s : StreamService) (ok : Bool) : StreamService :=
  StreamService.playNext { s with skipping := false, pendingNext := false } ok

/-- The first `data` callback of the encoder output: stamp `startedAt = now`
on the playing track and mirror it into `lastPlayedTrack`. -/
def StreamService.trackStarted (s : StreamService) (now : Nat) : StreamService :=
  match s.currentTrack with
  | some t =>
    { s with
      currentTrack := some { t with startedAt := some now },
      lastPlayedTrack := some { t with startedAt := some now } }
  | none => s

/-- The encoder `end` callback: clear `playing`, the stop handle and the pid;
when not skipping, schedule `playNext` after 100 ms. -/
def StreamService.trackEnded (s : StreamService) : StreamService :=
  { s with
    playing := false, stopCurrentPresent := false,
    currentFfmpegPid := none,
    pendingNext := s.pendingNext || !s.skipping }

/-! ### The event machine for reachable engine states -/

/-- One observable operation or internal callback of the engine. `ok` flags
model success or failure of the awaited audio-stream creation; `now`
arguments stand for `Date.now()` at that moment. -/
inductive Ev
| enqueue (payload : TrackPayload)
| dequeue
| remove (trackId : Nat)
| move (trackId : Nat) (newIndex : Int)
| ensurePlaying (ok : Bool)
| playNext (ok : Bool)
| skipCurrent
| skipTimer (ok : Bool)
| retryTimer (ok : Bool)
| setPaused (paused : Bool) (now : Nat)
| trackStarted (now : Nat)
| trackEnded

def stepEv (s : StreamService) : Ev → StreamService
| Ev.enqueue payload => { s with queue := (TrackQueue.enqueue s.queue payload).2 }
| Ev.dequeue => { s with queue := (TrackQueue.dequeue s.queue).2 }
| Ev.remove trackId => { s with queue := (TrackQueue.remove s.queue trackId).2 }
| Ev.move trackId newIndex => { s with queue := (TrackQueue.move s.queue trackId newIndex).2 }
| Ev.ensurePlaying ok => StreamService.ensurePlaying s ok
| Ev.playNext ok => StreamService.playNext s ok
| Ev.skipCurrent => StreamService.skipCurrent s
| Ev.skipTimer ok => StreamService.skipTimer s ok
| Ev.retryTimer ok => StreamService.playNext s ok
| Ev.setPaused paused now => (StreamService.setPaused s paused now).1
| Ev.trackStarted now => StreamService.trackStarted s now
| Ev.trackEnded => StreamService.trackEnded s

/-- The freshly constructed service (all fields as initialized in the class). -/
def initService : StreamService :=
  { taps := [], playing := false, starting := false, paused := false,
    pausedAt := none, totalPausedDuration := 0, stopCurrentPresent := false,
    currentFfmpegPid := none, skipping := false, pendingNext := false,
    currentTrack := none, lastPlayedTrack := none,
    currentYoutubeThumbnail := none, currentSoundcloudThumbnail := none,
    queue := { queue := [], nextId := 0 } }

def run (evs : List Ev) : StreamService :=
  evs.foldl stepEv initService

/-! ### URL normalization (`server/src/index.ts`, `normalizeYoutubeUrl`) -/

/-- A parsed WHATWG URL as the normalizer uses it: `hash` carries the leading
`#` (or is empty), matching Node's `URL.hash`; `params` models
`searchParams` in order. -/
structure Url where
  scheme : String
  host : String
  pathname : String
  params : List (String × String)
  hash : String
deriving DecidableEq

/-- `parsed.hash.replace(/^#/, '')`. -/
def dropHashMark (h : String) : String :=
  if startsWithStr h "#" then dropStr h 1 else h

def timeParams : List String := ["t", "start", "time_continue", "timestamp"]

/-- `normalizeYoutubeUrl` over parsed URLs: host check by substring
`includes`, deletion of the timestamp query params, and clearing of a
timestamp fragment. Non-matching URLs are returned as-is. -/
def normalizeYoutubeUrl (u : Url) : Url :=
  let host := toLowerStr u.host
  let isYoutube := containsSubstr host "youtube.com" || containsSubstr host "youtu.be"
    || containsSubstr host "music.youtube.com"
  if !isYoutube then u
  else
    let params := u.params.filter fun p => !(timeParams.contains p.1)
    let hash := dropHashMark u.hash
    let newHash :=
      if startsWithStr hash "t=" || startsWithStr hash "time_continue=" then "" else u.hash
    { u with params := params, hash := newHash }

/-- Serialization of the reduced URL model (no percent-encoding; enough for
the URLs the claims mention). -/
def Url.render (u : Url) : String :=
  let query := match u.params with
    | [] => ""
    | ps => "?" ++ String.intercalate "&" (ps.map fun p => p.1 ++ "=" ++ p.2)
  u.scheme ++ "://" ++ u.host ++ u.pathname ++ query ++ u.hash

/-! ### Generic HTTP fallback fetch (`StreamService.fetchRemoteStream`) -/

/-- An upstream HTTP response head: `statusCode` may be absent, `location`
is the `Location` header, `contentType` the `content-type` header, and
`body` abstracts the response byte stream. -/
structure HttpResp where
  statusCode : Option Nat
  location : Option String
  contentType : Option String
  body : Nat
deriving DecidableEq

/-- `fetchRemoteStream`: `net` models the network (target URL to response),
`resolve loc target` models `new URL(location, target).toString()`. Errors
carry the thrown message. -/
def fetchRemoteStream (net : String → HttpResp) (resolve : String → String → String)
    (target : String) (redirects : Nat) : Except String HttpResp :=
  if h : 5 < redirects then
    Except.error "Too many redirects while fetching audio stream"
  else
    let res := net target
    if optTruthy res.statusCode && decide (300 ≤ res.statusCode.getD 0)
        && decide (res.statusCode.getD 0 < 400) && res.location.isSome then
      fetchRemoteStream net resolve (resolve (res.location.getD "") target) (redirects + 1)
    else if !optTruthy res.statusCode || decide (400 ≤ res.statusCode.getD 0) then
      Except.error "Upstream responded with bad status"
    else
      let contentType := toLowerStr (res.contentType.getD "")
      let isAudio := startsWithStr contentType "audio/"
      let isHls := containsSubstr contentType "application/vnd.apple.mpegurl"
        || containsSubstr contentType "application/x-mpegurl"
      if !isAudio && !isHls then
        Except.error "Upstream returned non-audio content-type"
      else
        Except.ok res
termination_by 6 - redirects
decreasing_by
  simp_wf
  omega

/-! ### Helper lemmas -/

theorem perm_get_cons_eraseIdx {α : Type} :
    ∀ (l : List α) (i : Nat) (h : i < l.length),
      List.Perm l (l.get ⟨i, h⟩ :: l.eraseIdx i)
| _ :: _, 0, _ => List.Perm.refl _
| a :: l, i + 1, h => by
  have hi : i < l.length := by simpa using h
  have ih := perm_get_cons_eraseIdx l i hi
  simp only [List.eraseIdx_cons_succ, List.get_cons_succ]
  exact (ih.cons a).trans (List.Perm.swap _ _ _)

/-! ### Claim theorems -/

/-- Claim C3: `move` with an id absent from the queue returns `false` and
leaves the queue unchanged; `move` with a present id (first occurrence at
index `i`) returns `true`, reinserts that track at index
`max 0 (min k (size - 1))` computed on the pre-removal size, and the
resulting queue is a permutation of the old one. -/
theorem c3_move_clamped_reinsert (s : TrackQueue) (trackId : Nat) (k : Int) :
    ((∀ t ∈ s.queue, t.id ≠ trackId) → TrackQueue.move s trackId k = (false, s)) ∧
    (∀ i, ∀ h : i < s.queue.length,
      s.queue.findIdx? (fun t => t.id == trackId) = some i →
      (TrackQueue.move s trackId k).1 = true ∧
      ((TrackQueue.move s trackId k).2.queue.get?
          ((max 0 (min k ((s.queue.length : Int) - 1))).toNat)
        = some (s.queue.get ⟨i, h⟩)) ∧
      List.Perm (TrackQueue.move s trackId k).2.queue s.queue) := by
  constructor
  · intro habs
    have hnone : s.queue.findIdx? (fun t => t.id == trackId) = none := by
      rw [List.findIdx?_eq_none_iff]
      intro t ht
      simpa using habs t ht
    simp [TrackQueue.move, hnone]
  · intro i h hfi
    have hget : s.queue[i]? = some (s.queue.get ⟨i, h⟩) := by
      simp
    set c : Nat := (max 0 (min k ((s.queue.length : Int) - 1))).toNat with hcdef
    have hc : c ≤ (s.queue.eraseIdx i).length := by
      have := List.length_eraseIdx_of_lt h
      omega
    have hmove : TrackQueue.move s trackId k =
        (true, TrackQueue.mk ((s.queue.eraseIdx i).insertIdx c (s.queue.get ⟨i, h⟩)) s.nextId) := by
      simp [TrackQueue.move, hfi, hget, hcdef]
    have hlt : c < ((s.queue.eraseIdx i).insertIdx c (s.queue.get ⟨i, h⟩)).length := by
      rw [List.length_insertIdx _ _ hc]
      omega
    refine ⟨by rw [hmove], ?_, ?_⟩
    · rw [hmove, List.get?_eq_getElem?, List.getElem?_eq_getElem hlt,
        List.getElem_insertIdx_self _ _ _ hc]
    · rw [hmove]
      exact (List.perm_insertIdx _ _ hc).trans (perm_get_cons_eraseIdx s.queue i h).symm


/-- Example fixtures for witnesses. -/
def rbEx : RequestedBy :=
  { id := "steam:1", displayName := "User", avatar := none }

def mkTrack (n : Nat) : Track :=
  { id := n, url := "https://youtu.be/X", title := "T", thumbnail := none,
    duration := some 180, startedAt := none, source := Source.youtube,
    requestedBy := rbEx }

def qEx : TrackQueue :=
  { queue := [mkTrack 0, mkTrack 1, mkTrack 2], nextId := 3 }

/-- Witness for C3: moving absent id 7 fails and leaves `qEx` unchanged;
moving id 2 to index 0 succeeds and places that track at index 0. -/
theorem c3_move_clamped_reinsert_witness :
    (TrackQueue.move qEx 7 1 = (false, qEx)) ∧
    (TrackQueue.move qEx 2 0).1 = true ∧
    (TrackQueue.move qEx 2 0).2.queue.get? 0 = some (qEx.queue.get ⟨2, by decide⟩) := by
  refine ⟨(c3_move_clamped_reinsert qEx 7 1).1 (by decide), ?_, ?_⟩
  · exact ((c3_move_clamped_reinsert qEx 2 0).2 2 (by decide) (by decide)).1
  · have h := ((c3_move_clamped_reinsert qEx 2 0).2 2 (by decide) (by decide)).2.1
    simpa using h

/-- The code's YouTube-host test: substring `includes`, not host equality. -/
def isYoutubeHostCheck (host : String) : Bool :=
  containsSubstr (toLowerStr host) "youtube.com" || containsSubstr (toLowerStr host) "youtu.be"
    || containsSubstr (toLowerStr host) "music.youtube.com"

def uEvil : Url :=
  { scheme := "https", host := "evilyoutube.com", pathname := "/x",
    params := [("t", "5")], hash := "" }

/-- Counterexample to C4: `evilyoutube.com` is not one of the YouTube hosts
`youtube.com`, `youtu.be`, `music.youtube.com`, yet `normalizeYoutubeUrl`
does not return the URL unchanged (it strips the `t` parameter), because the
code tests the host with substring `includes`. -/
theorem c4_counterexample :
    (["youtube.com", "youtu.be", "music.youtube.com"].contains uEvil.host = false) ∧
    normalizeYoutubeUrl uEvil ≠ uEvil ∧
    (normalizeYoutubeUrl uEvil).params = [] := by
  refine ⟨by decide, by decide, by decide⟩

/-- Amended C4: for every parsed URL whose lowercased host CONTAINS one of
the substrings `youtube.com`, `youtu.be`, `music.youtube.com`, the
normalizer keeps scheme/host/path, deletes the query parameters
`t`, `start`, `time_continue`, `timestamp`, and clears the fragment exactly
when it begins with `t=` or `time_continue=`; URLs whose host contains none
of these substrings are returned unchanged. -/
theorem c4_amended (u : Url) :
    (isYoutubeHostCheck u.host = false → normalizeYoutubeUrl u = u) ∧
    (isYoutubeHostCheck u.host = true →
      (normalizeYoutubeUrl u).scheme = u.scheme ∧
      (normalizeYoutubeUrl u).host = u.host ∧
      (normalizeYoutubeUrl u).pathname = u.pathname ∧
      (normalizeYoutubeUrl u).params
        = u.params.filter (fun p => !(timeParams.contains p.1)) ∧
      ((startsWithStr (dropHashMark u.hash) "t="
          || startsWithStr (dropHashMark u.hash) "time_continue=") = true →
        (normalizeYoutubeUrl u).hash = "") ∧
      ((startsWithStr (dropHashMark u.hash) "t="
          || startsWithStr (dropHashMark u.hash) "time_continue=") = false →
        (normalizeYoutubeUrl u).hash = u.hash)) := by
  constructor
  · intro hno
    simp only [normalizeYoutubeUrl, isYoutubeHostCheck] at hno ⊢
    rw [hno]
    simp
  · intro hyes
    simp only [normalizeYoutubeUrl, isYoutubeHostCheck] at hyes ⊢
    rw [hyes]
    simp only [Bool.not_true, if_false]
    refine ⟨rfl, rfl, rfl, rfl, ?_, ?_⟩
    · intro hfrag
      simp [hfrag]
    · intro hfrag
      simp [hfrag]

def uYt : Url :=
  { scheme := "https", host := "youtu.be", pathname := "/X",
    params := [("t", "42")], hash := "" }

def uPlain : Url :=
  { scheme := "https", host := "example.com", pathname := "/foo",
    params := [("t", "9")], hash := "#t=3" }

/-- Witness for the amended C4 at the claim's own example
`https://youtu.be/X?t=42` and at a non-YouTube URL. -/
theorem c4_amended_witness :
    ((normalizeYoutubeUrl uYt).params = [] ∧ (normalizeYoutubeUrl uYt).host = "youtu.be") ∧
    normalizeYoutubeUrl uPlain = uPlain ∧
    (normalizeYoutubeUrl uYt).render = "https://youtu.be/X" := by
  refine ⟨?_, (c4_amended uPlain).1 (by decide), by decide⟩
  have h := (c4_amended uYt).2 (by decide)
  exact ⟨by rw [h.2.2.2.1]; decide, by rw [h.2.1]; decide⟩

def tapsEx : List Sink := [{ id := 1, destroyed := false }, { id := 2, destroyed := true },
  { id := 3, destroyed := false }]

def svcBase : StreamService :=
  { initService with taps := tapsEx, currentFfmpegPid := some 222 }

def svcPausedEx : StreamService :=
  { svcBase with paused := true, pausedAt := some 5000 }

/-- Claim C6: while paused, each broadcast writes the constant silence frame
instead of the chunk to every attached non-destroyed sink; while not paused,
the chunk itself is written to each such sink. -/
theorem c6_broadcast_silence_when_paused (s : StreamService) (chunk : List Nat) :
    (s.paused = true →
      StreamService.broadcastChunk s chunk
        = (s.taps.filter fun tap => !tap.destroyed).map
            (fun tap => Effect.writeSink tap.id SILENCE_FRAME)) ∧
    (s.paused = false →
      StreamService.broadcastChunk s chunk
        = (s.taps.filter fun tap => !tap.destroyed).map
            (fun tap => Effect.writeSink tap.id chunk)) := by
  constructor <;> intro h <;> simp [StreamService.broadcastChunk, h]

/-- Witness for C6 on a concrete service with one destroyed sink. -/
theorem c6_broadcast_silence_when_paused_witness :
    StreamService.broadcastChunk svcPausedEx [9, 9]
      = [Effect.writeSink 1 SILENCE_FRAME, Effect.writeSink 3 SILENCE_FRAME] ∧
    StreamService.broadcastChunk svcBase [9, 9]
      = [Effect.writeSink 1 [9, 9], Effect.writeSink 3 [9, 9]] := by
  constructor
  · rw [(c6_broadcast_silence_when_paused svcPausedEx [9, 9]).1 rfl]
    decide
  · rw [(c6_broadcast_silence_when_paused svcBase [9, 9]).2 rfl]
    decide

/-- Claim C9: `setPaused(p)` when the paused flag already equals `p` leaves
the whole state unchanged and performs no signal and no flush. -/
theorem c9_setPaused_noop (s : StreamService) (p : Bool) (now : Nat)
    (h : s.paused = p) :
    (StreamService.setPaused s p now).1 = s ∧
    (StreamService.setPaused s p now).2 = [] := by
  subst h
  cases hsp : s.paused
  case false =>
    have hres : StreamService.setPaused s false now = ({ s with paused := false }, []) := by
      simp [StreamService.setPaused, hsp]
    constructor
    · rw [hres]
      show ({ s with paused := false } : StreamService) = s
      rw [← hsp]
    · rw [hres]
  case true =>
    have hres : StreamService.setPaused s true now = ({ s with paused := true }, []) := by
      simp [StreamService.setPaused, hsp]
    constructor
    · rw [hres]
      show ({ s with paused := true } : StreamService) = s
      rw [← hsp]
    · rw [hres]

/-- Witness for C9: double pause and redundant unpause on concrete states. -/
theorem c9_setPaused_noop_witness :
    (StreamService.setPaused svcPausedEx true 7777 = (svcPausedEx, [])) ∧
    (StreamService.setPaused svcBase false 7777 = (svcBase, [])) := by
  constructor
  · have h := c9_setPaused_noop svcPausedEx true 7777 rfl
    exact Prod.ext h.1 h.2
  · have h := c9_setPaused_noop svcBase false 7777 rfl
    exact Prod.ext h.1 h.2

/-- Claim C5: `setPaused(true)` from unpaused always records
`pausedAt = now`, sets the paused flag, and writes the bulk flush block (the
silence frame repeated 100 times) to every attached non-destroyed sink, and
additionally sends SIGSTOP exactly when an encoder pid is known;
`setPaused(false)` from paused (with a recorded, non-zero `pausedAt`) always
adds `now - pausedAt` to `totalPausedDuration`, clears `pausedAt` and the
flag, and sends SIGCONT exactly when a pid is known. -/
theorem c5_setPaused_transitions :
    (SILENCE_FLUSH = (List.replicate 100 SILENCE_FRAME).flatten) ∧
    (∀ (s : StreamService) (now : Nat),
      s.paused = false →
      StreamService.setPaused s true now
        = ({ s with pausedAt := some now, paused := true },
           (match s.currentFfmpegPid with
            | some pid => [Effect.signal pid Sig.sigstop]
            | none => []) ++
             (s.taps.filter fun tap => !tap.destroyed).map
               (fun tap => Effect.writeSink tap.id SILENCE_FLUSH))) ∧
    (∀ (s : StreamService) (now pa : Nat),
      s.paused = true → s.pausedAt = some pa → pa ≠ 0 →
      StreamService.setPaused s false now
        = ({ s with
              totalPausedDuration := s.totalPausedDuration + (now - pa),
              pausedAt := none, paused := false },
           match s.currentFfmpegPid with
           | some pid => [Effect.signal pid Sig.sigcont]
           | none => [])) := by
  refine ⟨rfl, ?_, ?_⟩
  · intro s now hpaused
    simp [StreamService.setPaused, StreamService.flushWithSilence, hpaused]
  · intro s now pa hpaused hpa hpos
    simp [StreamService.setPaused, hpaused, hpa, optTruthy, hpos]

def svcNoPidEx : StreamService :=
  { initService with taps := tapsEx }

def svcNoPidPausedEx : StreamService :=
  { svcNoPidEx with paused := true, pausedAt := some 5000 }

/-- Witness for C5 at concrete states: pause and resume both with a known
pid (222, pause at 5000, resume at 7000) and with no pid (no signal, but
the same state changes and the same flush). -/
theorem c5_setPaused_transitions_witness :
    (StreamService.setPaused svcBase true 5000
      = ({ svcBase with pausedAt := some 5000, paused := true },
         Effect.signal 222 Sig.sigstop ::
           [Effect.writeSink 1 SILENCE_FLUSH, Effect.writeSink 3 SILENCE_FLUSH])) ∧
    (StreamService.setPaused svcNoPidEx true 5000
      = ({ svcNoPidEx with pausedAt := some 5000, paused := true },
         [Effect.writeSink 1 SILENCE_FLUSH, Effect.writeSink 3 SILENCE_FLUSH])) ∧
    (StreamService.setPaused svcPausedEx false 7000
      = ({ svcPausedEx with
            totalPausedDuration := 2000, pausedAt := none, paused := false },
         [Effect.signal 222 Sig.sigcont])) ∧
    (StreamService.setPaused svcNoPidPausedEx false 7000
      = ({ svcNoPidPausedEx with
            totalPausedDuration := 2000, pausedAt := none, paused := false },
         [])) := by
  refine ⟨?_, ?_, ?_, ?_⟩
  · rw [c5_setPaused_transitions.2.1 svcBase 5000 rfl]
    rfl
  · rw [c5_setPaused_transitions.2.1 svcNoPidEx 5000 rfl]
    rfl
  · rw [c5_setPaused_transitions.2.2 svcPausedEx 7000 5000 rfl rfl (by decide)]
    rfl
  · rw [c5_setPaused_transitions.2.2 svcNoPidPausedEx 7000 5000 rfl rfl (by decide)]
    rfl

/-- Claim C7: `ensurePlaying` returns the state unchanged whenever `playing`
or `starting` is set; a caller that observes both flags false runs
`playNext` with `starting` held during the call and cleared afterwards. -/
theorem c7_ensurePlaying_guard (s : StreamService) (ok : Bool) :
    (s.playing = true ∨ s.starting = true → StreamService.ensurePlaying s ok = s) ∧
    (s.playing = false → s.starting = false →
      StreamService.ensurePlaying s ok
        = { StreamService.playNext { s with starting := true } ok with
            starting := false }) := by
  constructor
  · intro h
    have hb : (s.playing || s.starting) = true := by
      rcases h with h | h <;> simp [h]
    simp [StreamService.ensurePlaying, hb]
  · intro h1 h2
    simp [StreamService.ensurePlaying, h1, h2]

def svcPlayingEx : StreamService :=
  { svcBase with playing := true }

/-- Witness for C7: a playing service is left unchanged; an idle service
proceeds into `playNext`. -/
theorem c7_ensurePlaying_guard_witness :
    StreamService.ensurePlaying svcPlayingEx true = svcPlayingEx ∧
    StreamService.ensurePlaying initService false
      = { StreamService.playNext { initService with starting := true } false with
          starting := false } := by
  exact ⟨(c7_ensurePlaying_guard svcPlayingEx true).1 (Or.inl rfl),
    (c7_ensurePlaying_guard initService false).2 rfl rfl⟩

/-- Claim C10: `skipCurrent` from the idle state (no current track, not
playing) still clears the encoder pid and stop handle and schedules a
deferred `playNext`; when that deferred `playNext` runs with a non-empty
queue and the stream starts, the head track is dequeued and becomes the
current track. -/
theorem c10_skip_idle_triggers_play (s : StreamService) (t : Track)
    (rest : List Track) (_hcur : s.currentTrack = none) (_hplay : s.playing = false)
    (hq : s.queue.queue = t :: rest) :
    (StreamService.skipCurrent s).currentFfmpegPid = none ∧
    (StreamService.skipCurrent s).stopCurrentPresent = false ∧
    (StreamService.skipCurrent s).pendingNext = true ∧
    (StreamService.skipCurrent s).skipping = true ∧
    (StreamService.skipTimer (StreamService.skipCurrent s) true).currentTrack = some t ∧
    (StreamService.skipTimer (StreamService.skipCurrent s) true).queue.queue = rest ∧
    (StreamService.skipTimer (StreamService.skipCurrent s) true).playing = true := by
  refine ⟨rfl, rfl, rfl, rfl, ?_, ?_, ?_⟩ <;>
    simp [StreamService.skipTimer, StreamService.skipCurrent, StreamService.playNext,
      TrackQueue.dequeue, hq]

def svcIdleQueuedEx : StreamService :=
  { svcBase with queue := qEx }

/-- Witness for C10 on an idle service whose queue holds three tracks. -/
theorem c10_skip_idle_triggers_play_witness :
    (StreamService.skipCurrent svcIdleQueuedEx).pendingNext = true ∧
    (StreamService.skipTimer (StreamService.skipCurrent svcIdleQueuedEx) true).currentTrack
      = some (mkTrack 0) ∧
    (StreamService.skipTimer (StreamService.skipCurrent svcIdleQueuedEx) true).queue.queue
      = [mkTrack 1, mkTrack 2] := by
  have h := c10_skip_idle_triggers_play svcIdleQueuedEx (mkTrack 0) [mkTrack 1, mkTrack 2]
    rfl rfl rfl
  exact ⟨h.2.2.1, h.2.2.2.2.1, h.2.2.2.2.2.1⟩

/-- Claim C1: when the reported track (current, or last-played when between
tracks) has a (truthy) `startedAt`, `getState` reports
`startedAt + totalPausedDuration`, independent of any in-progress pause
(`pausedAt` does not enter), so successive snapshots while paused agree. -/
theorem c1_getState_pause_adjusted (s : StreamService) (t : Track) (st : Nat)
    (htrack : s.currentTrack = some t ∨ (s.currentTrack = none ∧ s.lastPlayedTrack = some t))
    (hst : t.startedAt = some st) (hpos : st ≠ 0) :
    (StreamService.getState s).current
      = some { t with startedAt := some (st + s.totalPausedDuration) } ∧
    (∀ p, (StreamService.getState { s with pausedAt := p }).current
      = (StreamService.getState s).current) := by
  have hTruthy : optTruthy (some st) = true := by
    simp [optTruthy, hpos]
  constructor
  · rcases htrack with h | ⟨h1, h2⟩
    · simp [StreamService.getState, h, hst, hTruthy]
    · simp [StreamService.getState, h1, h2, hst, hTruthy]
  · intro p
    rfl

def trackLiveEx : Track :=
  { mkTrack 9 with startedAt := some 1000 }

def svcLiveEx : StreamService :=
  { svcBase with
    currentTrack := some trackLiveEx, lastPlayedTrack := some trackLiveEx,
    playing := true, paused := true, pausedAt := some 6000, totalPausedDuration := 250 }

/-- Witness for C1: a paused mid-track service reports
`startedAt = 1000 + 250` and the report ignores `pausedAt`. -/
theorem c1_getState_pause_adjusted_witness :
    (StreamService.getState svcLiveEx).current
      = some { trackLiveEx with startedAt := some 1250 } ∧
    (StreamService.getState { svcLiveEx with pausedAt := some 999999 }).current
      = (StreamService.getState svcLiveEx).current := by
  have h := c1_getState_pause_adjusted svcLiveEx trackLiveEx 1000 (Or.inl rfl) rfl
    (by decide)
  constructor
  · rw [h.1]
    exact rfl
  · exact h.2 (some 999999)

/-! ### The C2 invariant: the reported current track is never in the queue -/

def queueIds (s : StreamService) : List Nat :=
  s.queue.queue.map fun t => t.id

/-- Invariant: every queued id is below the fresh-id counter, queued ids are
pairwise distinct, and the current and last-played tracks (when present)
have ids below the counter and not in the queue. -/
def Inv (s : StreamService) : Prop :=
  (∀ t ∈ s.queue.queue, t.id < s.queue.nextId) ∧
  (s.queue.queue.map fun t => t.id).Nodup ∧
  (∀ t, s.currentTrack = some t → t.id < s.queue.nextId ∧ t.id ∉ queueIds s) ∧
  (∀ t, s.lastPlayedTrack = some t → t.id < s.queue.nextId ∧ t.id ∉ queueIds s)

theorem inv_initService : Inv initService := by
  refine ⟨?_, ?_, ?_, ?_⟩ <;> simp [initService, queueIds]

/-- `move` only permutes the stored queue. -/
theorem move_queue_perm (s : TrackQueue) (trackId : Nat) (k : Int) :
    List.Perm (TrackQueue.move s trackId k).2.queue s.queue := by
  cases hfi : s.queue.findIdx? (fun t => t.id == trackId) with
  | none => simp [TrackQueue.move, hfi]
  | some i =>
    obtain ⟨h, -, -⟩ := List.findIdx?_eq_some_iff_getElem.mp hfi
    have hget : s.queue[i]? = some (s.queue.get ⟨i, h⟩) := by simp
    set c : Nat := (max 0 (min k ((s.queue.length : Int) - 1))).toNat with hcdef
    have hc : c ≤ (s.queue.eraseIdx i).length := by
      have := List.length_eraseIdx_of_lt h
      omega
    have hmove : TrackQueue.move s trackId k =
        (true, TrackQueue.mk ((s.queue.eraseIdx i).insertIdx c (s.queue.get ⟨i, h⟩)) s.nextId) := by
      simp [TrackQueue.move, hfi, hget, hcdef]
    rw [hmove]
    exact (List.perm_insertIdx _ _ hc).trans (perm_get_cons_eraseIdx s.queue i h).symm

/-- `remove` only deletes from the stored queue (a sublist remains). -/
theorem remove_queue_sublist (s : TrackQueue) (trackId : Nat) :
    List.Sublist (TrackQueue.remove s trackId).2.queue s.queue := by
  cases hfi : s.queue.findIdx? (fun t => t.id == trackId) with
  | none => simp [TrackQueue.remove, hfi]
  | some i =>
    simp only [TrackQueue.remove, hfi]
    exact List.eraseIdx_sublist s.queue i

/-- Invariance under operations that only shrink the queue and keep
`nextId`, `currentTrack` and `lastPlayedTrack`. -/
theorem inv_of_sublist (s : StreamService) (q' : List Track)
    (hsub : List.Sublist q' s.queue.queue) (h : Inv s) :
    Inv { s with queue := { queue := q', nextId := s.queue.nextId } } := by
  obtain ⟨h1, h2, h3, h4⟩ := h
  have hmapsub : List.Sublist (q'.map fun t => t.id) (s.queue.queue.map fun t => t.id) :=
    hsub.map _
  refine ⟨?_, h2.sublist hmapsub, ?_, ?_⟩
  · intro t ht
    exact h1 t (hsub.subset ht)
  · intro t ht
    refine ⟨(h3 t ht).1, fun hmem => (h3 t ht).2 ?_⟩
    exact hmapsub.subset hmem
  · intro t ht
    refine ⟨(h4 t ht).1, fun hmem => (h4 t ht).2 ?_⟩
    exact hmapsub.subset hmem

/-- Invariance under a permutation of the queue with everything else fixed. -/
theorem inv_of_perm (s : StreamService) (q' : List Track)
    (hperm : List.Perm q' s.queue.queue) (h : Inv s) :
    Inv { s with queue := { queue := q', nextId := s.queue.nextId } } := by
  obtain ⟨h1, h2, h3, h4⟩ := h
  have hmap : List.Perm (q'.map fun t => t.id) (s.queue.queue.map fun t => t.id) :=
    hperm.map _
  refine ⟨?_, h2.perm hmap.symm, ?_, ?_⟩
  · intro t ht
    exact h1 t (hperm.subset ht)
  · intro t ht
    refine ⟨(h3 t ht).1, fun hmem => (h3 t ht).2 (hmap.subset hmem)⟩
  · intro t ht
    refine ⟨(h4 t ht).1, fun hmem => (h4 t ht).2 (hmap.subset hmem)⟩

theorem inv_enqueue (s : StreamService) (payload : TrackPayload) (h : Inv s) :
    Inv { s with queue := (TrackQueue.enqueue s.queue payload).2 } := by
  obtain ⟨h1, h2, h3, h4⟩ := h
  simp only [TrackQueue.enqueue]
  refine ⟨?_, ?_, ?_, ?_⟩
  · intro t ht
    simp only [List.mem_append, List.mem_singleton] at ht
    rcases ht with ht | ht
    · exact Nat.lt_succ_of_lt (h1 t ht)
    · subst ht
      exact Nat.lt_succ_self _
  · rw [List.map_append, List.nodup_append]
    refine ⟨h2, by simp, ?_⟩
    intro a ha hb
    simp only [List.map_cons, List.map_nil, List.mem_singleton] at hb
    subst hb
    simp only [List.mem_map] at ha
    obtain ⟨t, ht, hteq⟩ := ha
    exact absurd hteq (Nat.ne_of_lt (h1 t ht))
  · intro t ht
    simp only at ht
    obtain ⟨hlt, hnot⟩ := h3 t ht
    refine ⟨Nat.lt_succ_of_lt hlt, ?_⟩
    simp only [queueIds, List.map_append, List.mem_append]
    rintro (hmem | hmem)
    · exact hnot hmem
    · simp only [List.map_cons, List.map_nil, List.mem_singleton] at hmem
      omega
  · intro t ht
    simp only at ht
    obtain ⟨hlt, hnot⟩ := h4 t ht
    refine ⟨Nat.lt_succ_of_lt hlt, ?_⟩
    simp only [queueIds, List.map_append, List.mem_append]
    rintro (hmem | hmem)
    · exact hnot hmem
    · simp only [List.map_cons, List.map_nil, List.mem_singleton] at hmem
      omega

theorem inv_playNext (s : StreamService) (ok : Bool) (h : Inv s) :
    Inv (StreamService.playNext s ok) := by
  obtain ⟨h1, h2, h3, h4⟩ := h
  unfold StreamService.playNext
  by_cases hp : s.playing = true
  · simp only [hp, if_true]
    exact ⟨h1, h2, h3, h4⟩
  · simp only [Bool.not_eq_true] at hp
    simp only [hp, Bool.false_eq_true, if_false]
    cases hq : s.queue.queue with
    | nil =>
      simp only [TrackQueue.dequeue, hq]
      refine ⟨?_, ?_, ?_, ?_⟩
      · intro t ht
        exact h1 t ht
      · exact h2
      · intro t ht
        simp at ht
      · intro t ht
        simp at ht
    | cons head rest =>
      simp only [TrackQueue.dequeue, hq]
      have hhead : head ∈ s.queue.queue := by
        rw [hq]
        exact List.mem_cons_self _ _
      have hheadlt : head.id < s.queue.nextId := h1 head hhead
      have hnodup : ((head :: rest).map fun t => t.id).Nodup := by
        rw [← hq]
        exact h2
      rw [List.map_cons, List.nodup_cons] at hnodup
      cases ok with
      | true =>
        simp only [if_true]
        refine ⟨?_, hnodup.2, ?_, ?_⟩
        · intro t ht
          refine h1 t ?_
          rw [hq]
          exact List.mem_cons_of_mem _ ht
        · intro t ht
          simp only [Option.some.injEq] at ht
          subst ht
          exact ⟨hheadlt, by simpa [queueIds] using hnodup.1⟩
        · intro t ht
          simp only [Option.some.injEq] at ht
          subst ht
          exact ⟨hheadlt, by simpa [queueIds] using hnodup.1⟩
      | false =>
        simp only [Bool.false_eq_true, if_false]
        refine ⟨?_, hnodup.2, ?_, ?_⟩
        · intro t ht
          refine h1 t ?_
          rw [hq]
          exact List.mem_cons_of_mem _ ht
        · intro t ht
          simp at ht
        · intro t ht
          simp at ht

theorem inv_setPaused (s : StreamService) (p : Bool) (now : Nat) (h : Inv s) :
    Inv (StreamService.setPaused s p now).1 := by
  obtain ⟨h1, h2, h3, h4⟩ := h
  unfold StreamService.setPaused
  by_cases hc1 : (p && !s.paused) = true
  · simp only [hc1, if_true]
    exact ⟨h1, h2, h3, h4⟩
  · simp only [hc1, Bool.false_eq_true, if_false]
    by_cases hc2 : (!p && s.paused && optTruthy s.pausedAt) = true
    · simp only [hc2, if_true]
      exact ⟨h1, h2, h3, h4⟩
    · simp only [hc2, Bool.false_eq_true, if_false]
      exact ⟨h1, h2, h3, h4⟩

theorem inv_trackStarted (s : StreamService) (now : Nat) (h : Inv s) :
    Inv (StreamService.trackStarted s now) := by
  obtain ⟨h1, h2, h3, h4⟩ := h
  cases hcur : s.currentTrack with
  | none =>
    have heq : StreamService.trackStarted s now = s := by
      unfold StreamService.trackStarted
      rw [hcur]
    rw [heq]
    exact ⟨h1, h2, h3, h4⟩
  | some t =>
    have heq : StreamService.trackStarted s now
        = { s with
            currentTrack := some { t with startedAt := some now },
            lastPlayedTrack := some { t with startedAt := some now } } := by
      unfold StreamService.trackStarted
      rw [hcur]
    rw [heq]
    obtain ⟨hlt, hnot⟩ := h3 t hcur
    refine ⟨h1, h2, ?_, ?_⟩
    · intro u hu
      simp only [Option.some.injEq] at hu
      subst hu
      exact ⟨hlt, hnot⟩
    · intro u hu
      simp only [Option.some.injEq] at hu
      subst hu
      exact ⟨hlt, hnot⟩

theorem inv_step (s : StreamService) (e : Ev) (h : Inv s) : Inv (stepEv s e) := by
  obtain ⟨h1, h2, h3, h4⟩ := h
  cases e with
  | enqueue payload => exact inv_enqueue s payload ⟨h1, h2, h3, h4⟩
  | dequeue =>
    show Inv { s with queue := (TrackQueue.dequeue s.queue).2 }
    cases hq : s.queue.queue with
    | nil =>
      have : (TrackQueue.dequeue s.queue).2 = { queue := ([] : List Track), nextId := s.queue.nextId } := by
        simp only [TrackQueue.dequeue, hq]
        rw [← hq]
      rw [this]
      exact inv_of_sublist s [] (by rw [hq]) ⟨h1, h2, h3, h4⟩
    | cons head rest =>
      have : (TrackQueue.dequeue s.queue).2 = { queue := rest, nextId := s.queue.nextId } := by
        simp [TrackQueue.dequeue, hq]
      rw [this]
      refine inv_of_sublist s rest ?_ ⟨h1, h2, h3, h4⟩
      rw [hq]
      exact (List.sublist_cons_self head rest)
  | remove trackId =>
    show Inv { s with queue := (TrackQueue.remove s.queue trackId).2 }
    have hnid : (TrackQueue.remove s.queue trackId).2.nextId = s.queue.nextId := by
      cases hfi : s.queue.queue.findIdx? (fun t => t.id == trackId) with
      | none => simp [TrackQueue.remove, hfi]
      | some i => simp [TrackQueue.remove, hfi]
    have : (TrackQueue.remove s.queue trackId).2
        = { queue := (TrackQueue.remove s.queue trackId).2.queue, nextId := s.queue.nextId } := by
      rw [← hnid]
    rw [this]
    exact inv_of_sublist s _ (remove_queue_sublist s.queue trackId) ⟨h1, h2, h3, h4⟩
  | move trackId newIndex =>
    show Inv { s with queue := (TrackQueue.move s.queue trackId newIndex).2 }
    have hnid : (TrackQueue.move s.queue trackId newIndex).2.nextId = s.queue.nextId := by
      cases hfi : s.queue.queue.findIdx? (fun t => t.id == trackId) with
      | none => simp [TrackQueue.move, hfi]
      | some i =>
        cases hget : s.queue.queue[i]? with
        | none => simp [TrackQueue.move, hfi, hget]
        | some tr => simp [TrackQueue.move, hfi, hget]
    have : (TrackQueue.move s.queue trackId newIndex).2
        = { queue := (TrackQueue.move s.queue trackId newIndex).2.queue, nextId := s.queue.nextId } := by
      rw [← hnid]
    rw [this]
    exact inv_of_perm s _ (move_queue_perm s.queue trackId newIndex) ⟨h1, h2, h3, h4⟩
  | ensurePlaying ok =>
    show Inv (StreamService.ensurePlaying s ok)
    unfold StreamService.ensurePlaying
    by_cases hg : (s.playing || s.starting) = true
    · simp only [hg, if_true]
      exact ⟨h1, h2, h3, h4⟩
    · simp only [hg, Bool.false_eq_true, if_false]
      have hmid : Inv (StreamService.playNext { s with starting := true } ok) :=
        inv_playNext { s with starting := true } ok ⟨h1, h2, h3, h4⟩
      obtain ⟨g1, g2, g3, g4⟩ := hmid
      exact ⟨g1, g2, g3, g4⟩
  | playNext ok => exact inv_playNext s ok ⟨h1, h2, h3, h4⟩
  | skipCurrent =>
    refine ⟨h1, h2, ?_, h4⟩
    intro t ht
    simp [stepEv, StreamService.skipCurrent] at ht
  | skipTimer ok =>
    exact inv_playNext _ ok ⟨h1, h2, h3, h4⟩
  | retryTimer ok => exact inv_playNext s ok ⟨h1, h2, h3, h4⟩
  | setPaused p now => exact inv_setPaused s p now ⟨h1, h2, h3, h4⟩
  | trackStarted now => exact inv_trackStarted s now ⟨h1, h2, h3, h4⟩
  | trackEnded => exact ⟨h1, h2, h3, h4⟩

theorem inv_run (evs : List Ev) : Inv (run evs) := by
  suffices hgen : ∀ (l : List Ev) (s : StreamService), Inv s → Inv (l.foldl stepEv s) by
    exact hgen evs initService inv_initService
  intro l
  induction l with
  | nil => intro s hs; exact hs
  | cons e rest ih =>
    intro s hs
    exact ih (stepEv s e) (inv_step s e hs)

/-- The track reported by `getState` carries the id of the current track, or
of the last-played track when no current track exists. -/
theorem getState_current_id (s : StreamService) (t : Track)
    (h : (StreamService.getState s).current = some t) :
    ∃ t0, (s.currentTrack = some t0 ∨ (s.currentTrack = none ∧ s.lastPlayedTrack = some t0))
      ∧ t.id = t0.id := by
  cases hcur : s.currentTrack with
  | some t0 =>
    refine ⟨t0, Or.inl rfl, ?_⟩
    simp only [StreamService.getState, hcur] at h
    by_cases htr : optTruthy t0.startedAt = true
    · simp only [htr, if_true, Option.some.injEq] at h
      subst h
      rfl
    · simp only [Bool.not_eq_true] at htr
      simp only [htr, Bool.false_eq_true, if_false, Option.some.injEq] at h
      subst h
      rfl
  | none =>
    cases hlast : s.lastPlayedTrack with
    | none =>
      simp [StreamService.getState, hcur, hlast] at h
    | some t0 =>
      refine ⟨t0, Or.inr ⟨rfl, rfl⟩, ?_⟩
      simp only [StreamService.getState, hcur, hlast] at h
      by_cases htr : optTruthy t0.startedAt = true
      · simp only [htr, if_true, Option.some.injEq] at h
        subst h
        rfl
      · simp only [Bool.not_eq_true] at htr
        simp only [htr, Bool.false_eq_true, if_false, Option.some.injEq] at h
        subst h
        rfl

/-- Claim C2: in every state reachable by any sequence of the engine's
operations and callbacks from the initial state, the track reported as
`current` by `getState` never shares an id with a track in the reported
queue. -/
theorem c2_current_never_in_queue (evs : List Ev) (t : Track)
    (h : (StreamService.getState (run evs)).current = some t) :
    t.id ∉ ((StreamService.getState (run evs)).queue.map fun u => u.id) := by
  obtain ⟨-, -, h3, h4⟩ := inv_run evs
  obtain ⟨t0, hsrc, hid⟩ := getState_current_id (run evs) t h
  have hqueue : (StreamService.getState (run evs)).queue = (run evs).queue.queue := rfl
  rw [hqueue, hid]
  rcases hsrc with hcur | ⟨hnone, hlast⟩
  · exact (h3 t0 hcur).2
  · exact (h4 t0 hlast).2

def payloadEx : TrackPayload :=
  { url := "https://youtu.be/A", title := "A", thumbnail := none, duration := some 60,
    startedAt := none, source := Source.youtube, requestedBy := rbEx }

def payloadEx2 : TrackPayload :=
  { payloadEx with url := "https://youtu.be/B", title := "B" }

def evsEx : List Ev :=
  [Ev.enqueue payloadEx, Ev.ensurePlaying true, Ev.enqueue payloadEx2,
   Ev.setPaused true 5000, Ev.trackStarted 6000]

/-- The track the witness expects `getState` to report after `evsEx`. -/
def currentEx : Track :=
  { id := 0, url := "https://youtu.be/A", title := "A", thumbnail := none,
    duration := some 60, startedAt := some 6000, source := Source.youtube,
    requestedBy := rbEx }

/-- Witness for C2: after enqueueing two tracks, starting playback, pausing
and receiving the first audio chunk, the reported current track's id (0) is
not among the queued ids. -/
theorem c2_current_never_in_queue_witness :
    (∃ t, (StreamService.getState (run evsEx)).current = some t ∧
      t.id ∉ ((StreamService.getState (run evsEx)).queue.map fun u => u.id)) := by
  refine ⟨currentEx, ?_, ?_⟩
  · decide
  · exact c2_current_never_in_queue evsEx _ (by decide)

/-! ### C8: behaviour of the generic HTTP fallback fetch -/

/-- The fetch's acceptance test on a content-type header: `audio/*` or one of
the two HLS playlist types. -/
def audioOrHls (ct0 : Option String) : Bool :=
  startsWithStr (toLowerStr (ct0.getD "")) "audio/"
    || (containsSubstr (toLowerStr (ct0.getD "")) "application/vnd.apple.mpegurl"
      || containsSubstr (toLowerStr (ct0.getD "")) "application/x-mpegurl")

def resolveId : String → String → String := fun loc _ => loc

def netHlsEx : String → HttpResp := fun _ =>
  { statusCode := some 200, location := none,
    contentType := some "application/x-mpegurl", body := 7 }

def net302Ex : String → HttpResp := fun _ =>
  { statusCode := some 302, location := none,
    contentType := some "audio/mpeg", body := 9 }

/-- Counterexample to C8: the fetch does NOT fail on every non-audio
content-type (an HLS playlist type is accepted with success), and does NOT
fail on every non-2xx response (a 302 without a `Location` header falls
through to the content-type check and succeeds). -/
theorem c8_counterexample :
    (startsWithStr (toLowerStr ((netHlsEx "http://a").contentType.getD "")) "audio/" = false ∧
      fetchRemoteStream netHlsEx resolveId "http://a" 0 = Except.ok (netHlsEx "http://a")) ∧
    ((net302Ex "http://a").statusCode = some 302 ∧ (302 < 200 ∨ 300 ≤ 302) ∧
      fetchRemoteStream net302Ex resolveId "http://a" 0 = Except.ok (net302Ex "http://a")) := by
  refine ⟨⟨by decide, ?_⟩, rfl, by omega, ?_⟩ <;>
    · rw [fetchRemoteStream.eq_def]
      decide

/-- Amended C8: a call reached with redirect depth above 5 fails; a response
that is not followed as a redirect (no 3xx-status-with-Location) fails when
its status is missing, zero or >= 400, fails when its content-type is
neither `audio/*` nor an HLS playlist type, and otherwise the upstream
response (its byte stream) is returned. -/
theorem c8_amended (net : String → HttpResp) (resolve : String → String → String)
    (target : String) (r : Nat) :
    (5 < r → fetchRemoteStream net resolve target r
      = Except.error "Too many redirects while fetching audio stream") ∧
    (r ≤ 5 → (net target).statusCode = none →
      fetchRemoteStream net resolve target r
        = Except.error "Upstream responded with bad status") ∧
    (r ≤ 5 → (net target).statusCode = some 0 →
      fetchRemoteStream net resolve target r
        = Except.error "Upstream responded with bad status") ∧
    (∀ sc, r ≤ 5 → (net target).statusCode = some sc → sc ≠ 0 →
      ¬(300 ≤ sc ∧ sc < 400 ∧ (net target).location.isSome = true) →
      ((400 ≤ sc → fetchRemoteStream net resolve target r
          = Except.error "Upstream responded with bad status") ∧
       (sc < 400 → audioOrHls (net target).contentType = false →
        fetchRemoteStream net resolve target r
          = Except.error "Upstream returned non-audio content-type") ∧
       (sc < 400 → audioOrHls (net target).contentType = true →
        fetchRemoteStream net resolve target r = Except.ok (net target)))) := by
  refine ⟨?_, ?_, ?_, ?_⟩
  · intro hr
    rw [fetchRemoteStream.eq_def]
    simp [hr]
  · intro hr hsc
    have hr5 : ¬ 5 < r := by omega
    rw [fetchRemoteStream.eq_def]
    simp [dif_neg hr5, hsc, optTruthy]
  · intro hr hsc
    have hr5 : ¬ 5 < r := by omega
    rw [fetchRemoteStream.eq_def]
    simp [dif_neg hr5, hsc, optTruthy]
  · intro sc hr hsc hzero hno
    have hr5 : ¬ 5 < r := by omega
    have hguard : ¬((optTruthy (net target).statusCode
        && decide (300 ≤ (net target).statusCode.getD 0)
        && decide ((net target).statusCode.getD 0 < 400)
        && (net target).location.isSome) = true) := by
      rw [hsc]
      simp only [optTruthy, Option.getD_some, Bool.and_eq_true, decide_eq_true_eq,
        bne_iff_ne, ne_eq]
      rintro ⟨⟨⟨-, hge⟩, hlt⟩, hploc⟩
      exact hno ⟨hge, hlt, hploc⟩
    have hgfalse : (optTruthy (net target).statusCode
        && decide (300 ≤ (net target).statusCode.getD 0)
        && decide ((net target).statusCode.getD 0 < 400)
        && (net target).location.isSome) = false := Bool.eq_false_iff.mpr hguard
    refine ⟨?_, ?_, ?_⟩
    · intro h400
      rw [fetchRemoteStream.eq_def]
      simp only [dif_neg hr5, hgfalse, Bool.false_eq_true, if_false]
      have hbad : (!optTruthy (net target).statusCode
          || decide (400 ≤ (net target).statusCode.getD 0)) = true := by
        rw [hsc]
        simp [h400]
      simp only [hbad, if_true]
    · intro hlt400 hct
      rw [fetchRemoteStream.eq_def]
      simp only [dif_neg hr5, hgfalse, Bool.false_eq_true, if_false]
      have hbad : (!optTruthy (net target).statusCode
          || decide (400 ≤ (net target).statusCode.getD 0)) = false := by
        rw [hsc]
        simp only [optTruthy, Option.getD_some]
        simp [hzero, Nat.not_le.mpr hlt400]
      simp only [hbad, Bool.false_eq_true, if_false]
      simp only [audioOrHls, Bool.or_eq_false_iff] at hct
      simp [hct.1, hct.2.1, hct.2.2]
    · intro hlt400 hct
      rw [fetchRemoteStream.eq_def]
      simp only [dif_neg hr5, hgfalse, Bool.false_eq_true, if_false]
      have hbad : (!optTruthy (net target).statusCode
          || decide (400 ≤ (net target).statusCode.getD 0)) = false := by
        rw [hsc]
        simp only [optTruthy, Option.getD_some]
        simp [hzero, Nat.not_le.mpr hlt400]
      simp only [hbad, Bool.false_eq_true, if_false]
      simp only [audioOrHls] at hct
      rcases Bool.or_eq_true_iff.mp hct with ha | hh
      · simp [ha]
      · rcases Bool.or_eq_true_iff.mp hh with h1 | h2
        · simp [h1]
        · simp [h2]

def netAudioEx : String → HttpResp := fun _ =>
  { statusCode := some 200, location := none,
    contentType := some "audio/mpeg", body := 1 }

def net404Ex : String → HttpResp := fun _ =>
  { statusCode := some 404, location := none,
    contentType := some "audio/mpeg", body := 2 }

def netNoStatusEx : String → HttpResp := fun _ =>
  { statusCode := none, location := none,
    contentType := some "audio/mpeg", body := 3 }

def netZeroStatusEx : String → HttpResp := fun _ =>
  { statusCode := some 0, location := none,
    contentType := some "audio/mpeg", body := 4 }

/-- Witness for the amended C8: depth 6 fails, a missing status fails, a
zero status fails, a 404 fails, and a 200 with `audio/mpeg` succeeds. -/
theorem c8_amended_witness :
    fetchRemoteStream netAudioEx resolveId "http://a" 6
      = Except.error "Too many redirects while fetching audio stream" ∧
    fetchRemoteStream netNoStatusEx resolveId "http://a" 0
      = Except.error "Upstream responded with bad status" ∧
    fetchRemoteStream netZeroStatusEx resolveId "http://a" 0
      = Except.error "Upstream responded with bad status" ∧
    fetchRemoteStream net404Ex resolveId "http://a" 0
      = Except.error "Upstream responded with bad status" ∧
    fetchRemoteStream netAudioEx resolveId "http://a" 0
      = Except.ok (netAudioEx "http://a") := by
  refine ⟨(c8_amended netAudioEx resolveId "http://a" 6).1 (by omega), ?_, ?_, ?_, ?_⟩
  · exact (c8_amended netNoStatusEx resolveId "http://a" 0).2.1 (by omega) rfl
  · exact (c8_amended netZeroStatusEx resolveId "http://a" 0).2.2.1 (by omega) rfl
  · exact ((c8_amended net404Ex resolveId "http://a" 0).2.2.2 404 (by omega) rfl
      (by omega) (by simp)).1 (by omega)
  · exact ((c8_amended netAudioEx resolveId "http://a" 0).2.2.2 200 (by omega) rfl
      (by omega) (by simp)).2.2 (by omega) (by decide)

end Radio
